import Mathlib

/-!
Verification of the restinfront `Model` runtime (src/src/Model.js) against its
natural-language specification.

The JavaScript source is shallowly embedded: each Lean definition mirrors one
function or code region of `Model.js` (line numbers cited in doc comments).
JavaScript dynamic values are modelled by the `JSValue` universe where the
dynamism matters; thrown exceptions are modelled with `Except` or an explicit
`thrown` field; machine state mutated in place by the source is passed
explicitly.
-/

set_option autoImplicit false

/-! ## A small universe of JavaScript values -/

/-- JavaScript values, as far as the modelled code inspects them:
`undefined`, `null`, booleans, numbers (the code only manipulates integral
counts and offsets), strings, arrays and plain objects (ordered own-property
lists, matching insertion order of object literals). -/
inductive JSValue where
  | undefVal
  | jsnull
  | bool (b : Bool)
  | num (n : Int)
  | str (s : String)
  | arr (elems : List JSValue)
  | obj (fields : List (String × JSValue))
deriving Repr

/-- Exceptions thrown by the modelled code: `TypeError` (raised by JavaScript
itself, e.g. calling or dereferencing `undefined`) and `RestinfrontError`
(raised explicitly by Model.js, carrying a message). -/
inductive JsErr where
  | typeError
  | restinfrontError (msg : String)
deriving DecidableEq, Repr

/-- JavaScript `ToPropertyKey`/`ToString` coercion used when a non-string value
is used as a property key: `o[undefined]` reads property `"undefined"`. -/
def toPropertyKey : JSValue → String
  | .undefVal => "undefined"
  | .jsnull => "null"
  | .bool b => if b then "true" else "false"
  | .num n => toString n
  | .str s => s
  | .arr _ => ""
  | .obj _ => "[object Object]"

/-- utilib `has(obj, key)`: own-property test (`Object.prototype.hasOwnProperty`).
Non-object receivers of the modelled call sites have no own string keys. -/
def jsHas : JSValue → String → Bool
  | .obj fields, key => (fields.lookup key).isSome
  | _, _ => false

/-- JavaScript property read `obj[key]`; a missing property reads as `undefined`. -/
def jsGet : JSValue → String → JSValue
  | .obj fields, key => (fields.lookup key).getD .undefVal
  | _, _ => .undefVal

/-- JavaScript property write / `Map.prototype.set`: replace the value of an
existing key in place, otherwise append the new entry (insertion order). -/
def assocSet {β : Type} (m : List (String × β)) (k : String) (v : β) : List (String × β) :=
  if (m.lookup k).isSome then
    m.map (fun p => if p.1 = k then (k, v) else p)
  else
    m ++ [(k, v)]

/-! ## Collection algebra (Model.js lines 141-149, 542-594)

The collection algebra operates on the ordered item sequence (the `collection`
property, lines 322-324 and 421-424) and the server-reported total
`$restinfront.count`.  Items are an abstract type `α` together with the value
of their primary-key field (`item[this.primaryKeyFieldname]`, a string in every
shipped field type).  `add` is modelled on its `item instanceof this.constructor`
branch (line 570): the claims quantify over items that are already instances. -/

/-- A collection instance, reduced to the data the collection algebra touches:
the ordered item sequence and `$restinfront.count`. -/
structure CollState (α : Type) where
  items : List α
  count : Int
deriving Repr

/-- A reference accepted by `find`/`exists`/`remove` (Model.js lines 141-149):
a predicate function, a primary-key value, or an object carrying the primary key. -/
inductive Ref (α : Type) where
  | byPred (f : α → Bool)
  | byKey (k : String)
  | byObj (o : α)

/-- `Model._getCollectionCallback` (lines 141-149): resolve a reference to a
predicate.  `pk` reads the primary-key field of an item. -/
def getCollectionCallback {α : Type} (pk : α → String) : Ref α → (α → Bool)
  | .byPred f => f
  | .byKey k => fun item => pk item = k
  | .byObj o => fun item => pk item = pk o

/-- The two values `remove` can produce (line 556 and line 561): JavaScript
`null`, or the array returned by `Array.prototype.splice` — never a bare item,
which is also representable so that the claim can be stated. -/
inductive JsRet (α : Type) where
  | jsnull
  | bareItem (x : α)
  | array (xs : List α)
deriving DecidableEq, Repr

/-- `Array.prototype.splice(i, 1)`: the pair (removed elements, remaining list). -/
def spliceOne {α : Type} (l : List α) (i : Nat) : List α × List α :=
  ((l.drop i).take 1, l.take i ++ l.drop (i + 1))

/-- `Model.prototype.add` (lines 569-579), `instanceof` branch: push the item,
increment `count`, return the pushed instance. -/
def CollState.add {α : Type} (c : CollState α) (item : α) : α × CollState α :=
  (item, { items := c.items ++ [item], count := c.count + 1 })

/-- `Model.prototype.remove` (lines 552-562): `findIndex` with the resolved
callback; on no match return `null` and leave the state alone; otherwise
decrement `count` and return the result of `splice(indexToRemove, 1)`. -/
def CollState.remove {α : Type} (pk : α → String) (ref : Ref α) (c : CollState α) :
    JsRet α × CollState α :=
  match c.items.findIdx? (getCollectionCallback pk ref) with
  | none => (.jsnull, c)
  | some i =>
      let s := spliceOne c.items i
      (.array s.1, { items := s.2, count := c.count - 1 })

/-- `Model.prototype.exists` (lines 542-544): `some` with the resolved callback. -/
def CollState.existsRef {α : Type} (pk : α → String) (ref : Ref α) (c : CollState α) : Bool :=
  c.items.any (getCollectionCallback pk ref)

/-- A concrete item shape for witnesses and counterexamples: one primary-key
field `id`, as in the README User model. -/
structure CItem where
  id : String
deriving DecidableEq, Repr

/-- Primary-key read for `CItem`. -/
def citemPk (x : CItem) : String := x.id

/-! ## The `JSON` builtin object

`Model.prototype.toJSON` (line 402) and `_buildRequestInit` (line 767) both
call `JSON.stringyfy(...)`.  The `JSON` builtin owns `parse` and `stringify`;
reading any other member yields `undefined`, and calling `undefined` throws a
`TypeError`.  The member lookup is modelled explicitly so that the misspelling
is visible in the embedding. -/

/-- The function-valued members of the `JSON` builtin object. -/
inductive JsFun where
  | parse
  | stringify
deriving DecidableEq, Repr

/-- Member read on the `JSON` builtin: `JSON.name`. -/
def jsonGetMember : String → Option JsFun
  | "parse" => some .parse
  | "stringify" => some .stringify
  | _ => none

mutual
/-- Backing model of the `JSON.stringify` builtin (string escaping omitted;
unreachable from the modelled code, which only reads the misspelled member). -/
def jsStringify : JSValue → String
  | .undefVal => "null"
  | .jsnull => "null"
  | .bool b => if b then "true" else "false"
  | .num n => toString n
  | .str s => "\"" ++ s ++ "\""
  | .arr es => "[" ++ jsStringifyElems es ++ "]"
  | .obj fs => "\x7b" ++ jsStringifyFields fs ++ "\x7d"

def jsStringifyElems : List JSValue → String
  | [] => ""
  | [e] => jsStringify e
  | e :: es => jsStringify e ++ "," ++ jsStringifyElems es

def jsStringifyFields : List (String × JSValue) → String
  | [] => ""
  | [(k, v)] => "\"" ++ k ++ "\":" ++ jsStringify v
  | (k, v) :: fs => "\"" ++ k ++ "\":" ++ jsStringify v ++ "," ++ jsStringifyFields fs
end

/-- Calling the value read from a member access: calling `undefined` (a missing
member) throws a `TypeError`; `JSON.parse` applied to a non-string also throws. -/
def callJsonMember : Option JsFun → JSValue → Except JsErr String
  | none, _ => .error .typeError
  | some .stringify, v => .ok (jsStringify v)
  | some .parse, _ => .error .typeError

/-- `Model.prototype.toJSON` (lines 401-403): `JSON.stringyfy(this.beforeSerialize())`.
The argument stands for the value returned by `beforeSerialize()`. -/
def toJSON (serialized : JSValue) : Except JsErr String :=
  callJsonMember (jsonGetMember "stringyfy") serialized

/-! ## HTTP lifecycle state machine (Model.js lines 209-237, 679-693, 745-874)

The fetch states are embedded exactly as the constructor creates them:
`$restinfront.fetch.states` owns the global flags and a `get` sub-state
(lines 213-225) — it has NO `save` member.  The constructor of an item
instance creates `$restinfront.fetch.save` (lines 233-237), a sibling of
`states`; it is the object reset by `valid` (lines 681-683).  The writes to
`this.$restinfront.fetch.states.save.*` inside `fetch` (lines 798-800,
832, 842, 872) therefore dereference `undefined`. -/

/-- One per-operation state triple (`progressing`, `succeeded`, `failed`). -/
structure OpStates where
  progressing : Bool
  succeeded : Bool
  failed : Bool
deriving DecidableEq, Repr

/-- `$restinfront.fetch.states` (lines 214-224): global flags plus the `get`
sub-state.  There is no `save` member here. -/
structure FetchStates where
  progressing : Bool
  succeeded : Bool
  succeededOnce : Bool
  failed : Bool
  get : OpStates
deriving DecidableEq, Repr

/-- The `authentication` static: `false`, or a token provider.  The provider
result is `none` for `null`/`undefined`. -/
inductive AuthConfig where
  | disabled
  | provider (token : Option String)
deriving DecidableEq, Repr

/-- JavaScript falsiness of the provider result (`!token`, line 758):
`null`/`undefined` and the empty string are falsy. -/
def tokenFalsy : Option String → Bool
  | none => true
  | some s => s = ""

/-- The static model configuration (lines 18-26) used by `fetch`. -/
structure ModelConfig where
  endpoint : String
  collectionDataKey : String := "rows"
  collectionCountKey : String := "count"
  schemaFields : List String := []
  authentication : AuthConfig := .disabled

/-- The request metadata assembled by `_buildRequestInit` (lines 745-771),
reduced to what the claims observe: method, authorization header presence, and
the JSON body if one was attached. -/
structure RequestInit where
  method : String
  hasAuthHeader : Bool
  body : Option String
deriving DecidableEq, Repr

/-- Lines 765-768 of `_buildRequestInit`: for `POST`/`PUT`/`PATCH`, attach
`JSON.stringyfy(this.beforeSerialize({removeInvalid: true}))` as the body.
`serializedSelf` stands for the `beforeSerialize` result. -/
def attachBody (ri : RequestInit) (serializedSelf : JSValue) : Except JsErr RequestInit :=
  if ["POST", "PUT", "PATCH"].contains ri.method then
    match callJsonMember (jsonGetMember "stringyfy") serializedSelf with
    | .error e => .error e
    | .ok s => .ok { ri with body := some s }
  else
    .ok ri

/-- The message of the `RestinfrontError` thrown on a falsy token (line 759). -/
def authTokenMsg : String := "fetch: authentication returned an invalid token"

/-- `Model.prototype._buildRequestInit` (lines 745-771): base init with JSON
content type; if authentication is configured, await the provider and throw a
`RestinfrontError` on a falsy token, else set the bearer header; then attach
the body for mutating methods. -/
def buildRequestInit (cfg : ModelConfig) (serializedSelf : JSValue) (method : String) :
    Except JsErr RequestInit :=
  let ri : RequestInit := { method := method, hasAuthHeader := false, body := none }
  match cfg.authentication with
  | .disabled => attachBody ri serializedSelf
  | .provider token =>
      if tokenFalsy token then
        .error (.restinfrontError authTokenMsg)
      else
        attachBody { ri with hasAuthHeader := true } serializedSelf

/-- The options record passed to `fetch` (line 779); `pathname` and
`searchParams` only feed the request URL, which no claim observes. -/
structure FetchOptions where
  method : String
  extend : Bool := false
deriving DecidableEq, Repr

/-- What the network does once the request is issued: the transport call
rejects (network failure, or the 20-second abort), or a response arrives with
an `ok` flag and a parsed JSON body. -/
inductive NetworkOutcome where
  | failure
  | response (ok : Bool) (body : JSValue)
deriving Repr

/-- An instance as `fetch` sees it: the schema-field data (abstract, `δ`),
`$restinfront.isNew` (absent on collections), `$restinfront.fetch.states`,
`$restinfront.fetch.save` (the sibling object, lines 233-237), and the
memoized fetch options (line 785). -/
structure FetchInstance (δ : Type) where
  data : δ
  isNew : Option Bool
  states : FetchStates
  fetchSave : OpStates
  options : Option FetchOptions

/-- The observable result of a `fetch` call: the instance state after the call
(mutations performed before a throw persist, as in JavaScript), whether
`onFetchError` was invoked, and the exception that escaped `fetch`, if any. -/
structure FetchOutput (δ : Type) where
  inst : FetchInstance δ
  onFetchErrorCalled : Bool
  thrown : Option JsErr

/-- `Model.prototype.fetch` (lines 779-874).  `process` abstracts the
success-path server-data merge (lines 846-866, embedded concretely for
collection receivers as `processServerData` below): it maps the prior data and
`isNew` and the parsed body to their merged values.  Control flow:
endpoint guard (780-782); memoize options (785); reset global flags (789-791);
reset the per-operation flags (793-801) — for a non-`GET` method this writes
`states.save.progressing` where `states.save` is `undefined`, throwing a
`TypeError`; build the request init (804-812), OUTSIDE the try block, so its
exceptions escape `fetch` directly; try/catch around the transport call
(814-844): a rejection or a non-ok response invokes `onFetchError` and sets the
failed flags, an ok response sets the succeeded flags and the `succeededOnce`
latch; merge server data only if succeeded (846-866); finally clear the
per-operation progressing flag (868-874). -/
def fetchRun {δ : Type} (cfg : ModelConfig) (serializedSelf : JSValue)
    (process : δ → Option Bool → JSValue → δ × Option Bool)
    (inst : FetchInstance δ) (opts : FetchOptions) (outcome : NetworkOutcome) :
    FetchOutput δ :=
  if cfg.endpoint = "" then
    { inst := inst, onFetchErrorCalled := false,
      thrown := some (.restinfrontError "fetch: an endpoint is required to perform a request") }
  else
    let inst := { inst with options := some opts }
    let st0 : FetchStates :=
      { inst.states with progressing := true, failed := false, succeeded := false }
    if opts.method = "GET" then
      let st1 : FetchStates :=
        { st0 with get := { progressing := true, failed := false, succeeded := false } }
      let inst := { inst with states := st1 }
      match buildRequestInit cfg serializedSelf opts.method with
      | .error e => { inst := inst, onFetchErrorCalled := false, thrown := some e }
      | .ok _ =>
          match outcome with
          | .failure =>
              let st2 : FetchStates :=
                { st1 with failed := true, get := { st1.get with failed := true } }
              { inst := { inst with states := { st2 with get := { st2.get with progressing := false } } },
                onFetchErrorCalled := true, thrown := none }
          | .response ok body =>
              if ok then
                let st2 : FetchStates :=
                  { st1 with
                      succeeded := true, succeededOnce := true,
                      get := { st1.get with succeeded := true } }
                let merged := process inst.data inst.isNew body
                { inst :=
                    { inst with
                        data := merged.1, isNew := merged.2,
                        states := { st2 with get := { st2.get with progressing := false } } },
                  onFetchErrorCalled := false, thrown := none }
              else
                let st2 : FetchStates :=
                  { st1 with failed := true, get := { st1.get with failed := true } }
                { inst := { inst with states := { st2 with get := { st2.get with progressing := false } } },
                  onFetchErrorCalled := true, thrown := none }
    else
      { inst := { inst with states := st0 }, onFetchErrorCalled := false,
        thrown := some .typeError }

/-- The authentication step of `_buildRequestInit` succeeds: disabled, or the
provider yields a truthy token. -/
def authOk (cfg : ModelConfig) : Bool :=
  match cfg.authentication with
  | .disabled => true
  | .provider token => !tokenFalsy token

/-! ## Validator engine (Model.js lines 605-705)

`_getValidationErrors` walks a field-spec list.  Instances are embedded as the
schema-conformant trees the runtime constructs: a field is either a plain
value, a `BelongsTo`/`HasOne` association holding `null` or one nested
instance, or a `HasMany` association holding a collection of instances.  The
compiled validator verdict `validator[fieldname].isValid(this[fieldname], this)`
is an external composite (field-type capability plus custom rule); its result
on the current value is carried on each field as a boolean.  The
`validator[fieldname].checked = true` bookkeeping writes (lines 615, 629) are
not tracked: no settled claim observes them. -/

/-- One entry of the list passed to `valid` (line 609): a bare field name, or
a pair of a field name and an optional nested field-spec list (a missing or
`null` second element takes the non-recursive branch, line 647).  Any other
shape throws (line 661). -/
inductive FieldSpec where
  | leaf (name : String)
  | assoc (name : String) (sub : Option (List FieldSpec))
  | malformed
deriving Repr

mutual
/-- A schema field value together with its association tag
(`schema[fieldname].type.association`, line 633) and the validator verdict on
the current value. -/
inductive VField where
  | plain (validNow : Bool)
  | belongsTo (child : Option VInst) (validNow : Bool)
  | hasOne (child : Option VInst) (validNow : Bool)
  | hasMany (children : List VInst) (validNow : Bool)

/-- An item instance as the validator engine sees it: its named fields in
insertion order. -/
inductive VInst where
  | mk (fields : List (String × VField))
end

/-- The validator verdict of a field validated as a leaf. -/
def fieldLeafValid : VField → Bool
  | .plain v => v
  | .belongsTo _ v => v
  | .hasOne _ v => v
  | .hasMany _ v => v

/-- A value of the error map built by `_getValidationErrors`: `NOT_FOUND`
(line 621), `NOT_VALID` with the offending value (line 618, value abstracted),
a nested error map (`BelongsTo`/`HasOne` recursion or the non-recursive
association branch), or the filtered array of per-item error maps (`HasMany`,
lines 642-644). -/
inductive ErrVal where
  | notFound
  | notValid
  | nestedMap (m : List (String × ErrVal))
  | nestedList (l : List (List (String × ErrVal)))
deriving Repr

/-- The `errors` map (line 606): a JavaScript `Map`, i.e. insertion-ordered
key/value pairs with replace-on-set. -/
abbrev ErrorMap := List (String × ErrVal)

/-- The leaf-validation step (lines 611-622): mark checked (untracked), record
`NOT_VALID` if the validator rejects the current value, `NOT_FOUND` if the
instance has no such property. -/
def leafStep (fs : List (String × VField)) (name : String) (acc : ErrorMap) : ErrorMap :=
  match fs.lookup name with
  | some f => if fieldLeafValid f then acc else assocSet acc name .notValid
  | none => assocSet acc name .notFound

mutual
/-- `Model.prototype._getValidationErrors` (lines 605-666), with the error map
accumulated so far.  For an association entry with a nested list, the switch
on the association kind (lines 633-646) leaves `associationErrors` equal to
`undefined` when the kind is not one of the three tags or when a
`BelongsTo`/`HasOne` value is `null` (the guard on line 636 skips the
recursion); the subsequent `associationErrors.length` read (line 652) then
throws a `TypeError`.  For the branch without a nested list (line 648), the
source calls `this._getValidationErrors([fieldname])`, which is exactly one
leaf step on an empty map. -/
def getValidationErrors : VInst → List FieldSpec → ErrorMap → Except JsErr ErrorMap
  | _, [], acc => .ok acc
  | .mk fs, .leaf name :: rest, acc =>
      getValidationErrors (.mk fs) rest (leafStep fs name acc)
  | .mk fs, .assoc name sub :: rest, acc =>
      match sub, fs.lookup name with
      | _, none => getValidationErrors (.mk fs) rest (assocSet acc name .notFound)
      | none, some _ =>
          let m := leafStep fs name []
          getValidationErrors (.mk fs) rest
            (if 0 < m.length then assocSet acc name (.nestedMap m) else acc)
      | some _, some (.plain _) => .error .typeError
      | some _, some (.belongsTo none _) => .error .typeError
      | some _, some (.hasOne none _) => .error .typeError
      | some fl, some (.belongsTo (some child) _) =>
          match getValidationErrors child fl [] with
          | .error e => .error e
          | .ok m =>
              getValidationErrors (.mk fs) rest
                (if 0 < m.length then assocSet acc name (.nestedMap m) else acc)
      | some fl, some (.hasOne (some child) _) =>
          match getValidationErrors child fl [] with
          | .error e => .error e
          | .ok m =>
              getValidationErrors (.mk fs) rest
                (if 0 < m.length then assocSet acc name (.nestedMap m) else acc)
      | some fl, some (.hasMany children _) =>
          match getValidationErrorsMany children fl with
          | .error e => .error e
          | .ok ms =>
              let kept := ms.filter (fun m => decide (0 < m.length))
              getValidationErrors (.mk fs) rest
                (if 0 < kept.length then assocSet acc name (.nestedList kept) else acc)
  | _, .malformed :: _, _ => .error (.restinfrontError "valid: param syntax error")
termination_by _ fl _ => (sizeOf fl, 0)

/-- The `HasMany` traversal (lines 642-643): validate every item of the nested
collection in order, propagating a thrown exception. -/
def getValidationErrorsMany : List VInst → List FieldSpec → Except JsErr (List ErrorMap)
  | [], _ => .ok []
  | c :: cs, fl =>
      match getValidationErrors c fl [] with
      | .error e => .error e
      | .ok m =>
          match getValidationErrorsMany cs fl with
          | .error e => .error e
          | .ok ms => .ok (m :: ms)
termination_by cs fl => (sizeOf fl, sizeOf cs)
end

/-- The observable result of `Model.prototype.valid` (lines 673-693). -/
structure ValidOutput where
  inst : FetchInstance VInst
  result : Option Bool
  onValidationErrorCalled : Bool
  thrown : Option JsErr

/-- `Model.prototype.valid` (lines 673-693): throw on a collection instance
(`_denyCollection`, lines 311-315); reset the `save` sub-state —
`$restinfront.fetch.save`, the object the constructor created — to idle
(lines 681-683); run the deep validation; invoke `onValidationError` when the
error map is not empty; return whether it was empty.  The field list is typed,
so the `isArray` guard (line 676) always passes. -/
def validRun (inst : FetchInstance VInst) (fieldlist : List FieldSpec) : ValidOutput :=
  match inst.isNew with
  | none =>
      { inst := inst, result := none, onValidationErrorCalled := false,
        thrown := some (.restinfrontError "This function CANNOT be called by a collection instance") }
  | some _ =>
      let inst := { inst with fetchSave := ⟨false, false, false⟩ }
      match getValidationErrors inst.data fieldlist [] with
      | .error e =>
          { inst := inst, result := none, onValidationErrorCalled := false, thrown := some e }
      | .ok errors =>
          let isValid : Bool := errors.length == 0
          { inst := inst, result := some isValid, onValidationErrorCalled := !isValid,
            thrown := none }

/-! ## Server-data processing on a collection receiver (Model.js lines 846-866)

The success block of `fetch` parses the body, decides whether to unwrap a
paginated payload, constructs a transient instance from the data, and merges
it into `this` with `_mutateData`.  It is embedded concretely for a collection
receiver to settle the pagination claim. -/

/-- The transient instance built by `new this.constructor(data, dataOptions)`
(line 864): the constructor dispatches on the shape of `data` (lines 229, 254):
an object yields an item instance (fields formatted in insertion order,
`isNew` from the options), an array yields a collection (elements added in
order, the `count` option applied after all adds, lines 266-275), and any
other value yields a bare instance carrying only `$restinfront`. -/
inductive Built where
  | item (fields : List (String × JSValue)) (isNew : Bool)
  | coll (items : List Built) (count : Int)
  | bare
deriving Repr

mutual
/-- The constructor (lines 209-279) applied to server data with
`dataOptions = {isNew: false, count?}`: `isNew` is false, so `_buildRawItem`
is skipped and exactly the supplied keys are formatted (lines 248-252);
`beforeBuild` (a field-type capability) is applied to schema fields only.
`add` passes the same options to every element constructor (line 268), so a
nested array receives the same `count` option.  The final collection `count`
is the `count` option when present (line 274), else the number of added
elements. -/
def constructFrom (schemaFields : List String) (beforeBuild : String → JSValue → JSValue) :
    JSValue → Option Int → Built
  | .obj fields, _ =>
      .item (fields.map (fun kv =>
        (kv.1, if schemaFields.contains kv.1 then beforeBuild kv.1 kv.2 else kv.2))) false
  | .arr elems, countOpt =>
      .coll (constructFromElems schemaFields beforeBuild elems countOpt)
        (match countOpt with | some n => n | none => (elems.length : Int))
  | _, _ => .bare

/-- The element loop of the collection constructor (lines 267-269): `add` each
element in order, constructing it with the same options. -/
def constructFromElems (schemaFields : List String) (beforeBuild : String → JSValue → JSValue) :
    List JSValue → Option Int → List Built
  | [], _ => []
  | v :: vs, countOpt =>
      constructFrom schemaFields beforeBuild v countOpt ::
        constructFromElems schemaFields beforeBuild vs countOpt
end

/-- A live collection instance as the merge sees it: the item sequence
(`collection` property), `$restinfront.count`, `$restinfront.isNew` (absent on
a freshly built collection; the buggy merge path adds it), and the plain
instance properties (none initially; the buggy merge path adds some).
Class statics are NOT properties of instances. -/
structure CollectionInst where
  collection : List Built
  rfCount : Int
  rfIsNew : Option Bool
  props : List (String × JSValue)
deriving Repr

/-- Instance property read `this[name]` on a collection instance, for the
names the modelled code reads (`collectionCountKey`, `collectionDataKey`,
and merged plain properties): the statics live on the constructor function,
not on instances, so a name that was never assigned reads as `undefined`. -/
def collGetProp (c : CollectionInst) (name : String) : JSValue :=
  (c.props.lookup name).getD .undefVal

/-- Numeric read of a server-reported count (the modelled payloads carry
numbers). -/
def jsAsInt : JSValue → Int
  | .num n => n
  | _ => 0

/-- `Model.prototype._mutateData` (lines 331-358) with a collection receiver.
A collection argument either extends the sequence (`add` per item, line 335)
or replaces it (line 337), and then `count` is overwritten with the new total
(line 340) — so the per-`add` increments are dead.  An item argument takes the
item branch: its first own enumerable property is `$restinfront` (the
constructor assigns it first), for which only `isNew` is copied (line 345);
the receiver holds no instance-valued properties under the remaining keys, so
the recursive-merge guard (lines 347-350) is false and each field is assigned
directly (line 354).  A field literally named `collection` (which would
clobber the item array) does not occur in the modelled payloads. -/
def mutateIntoCollection (c : CollectionInst) (extend : Bool) (nd : Built) : CollectionInst :=
  match nd with
  | .coll items cnt =>
      if extend then { c with collection := c.collection ++ items, rfCount := cnt }
      else { c with collection := items, rfCount := cnt }
  | .item fields ndIsNew =>
      let c1 := { c with rfIsNew := some ndIsNew }
      fields.foldl (fun acc kv => { acc with props := assocSet acc.props kv.1 kv.2 }) c1
  | .bare => { c with rfIsNew := none }

/-- The success block of `fetch` (lines 846-866) on a collection receiver.
The unwrap test (lines 856-859) is `has(serverData, this.collectionCountKey)
&& has(serverData, this.collectionDataKey)`: it reads the keys from the
INSTANCE (`this`), where they are `undefined` — the statics live on the class
— and the `undefined` key coerces to the property name "undefined".  The
branch body (lines 860-861) reads the keys from `this.constructor`. -/
def processServerData (cfg : ModelConfig) (beforeBuild : String → JSValue → JSValue)
    (c : CollectionInst) (extend : Bool) (serverData : JSValue) : CollectionInst :=
  if jsHas serverData (toPropertyKey (collGetProp c "collectionCountKey")) &&
      jsHas serverData (toPropertyKey (collGetProp c "collectionDataKey")) then
    let data := jsGet serverData cfg.collectionDataKey
    let cnt := jsAsInt (jsGet serverData cfg.collectionCountKey)
    mutateIntoCollection c extend (constructFrom cfg.schemaFields beforeBuild data (some cnt))
  else
    mutateIntoCollection c extend (constructFrom cfg.schemaFields beforeBuild serverData none)

/-- The same success block as the spec words it: "If the body exposes both the
configured collection-count key and collection-data key, unwrap to
`(data, count)`; otherwise treat the whole body as the data payload" — i.e.
the unwrap DECISION also uses the model configuration keys.  Stated for
comparison with `processServerData`, which is the code. -/
def processServerDataSpec (cfg : ModelConfig) (beforeBuild : String → JSValue → JSValue)
    (c : CollectionInst) (extend : Bool) (serverData : JSValue) : CollectionInst :=
  if jsHas serverData cfg.collectionCountKey && jsHas serverData cfg.collectionDataKey then
    let data := jsGet serverData cfg.collectionDataKey
    let cnt := jsAsInt (jsGet serverData cfg.collectionCountKey)
    mutateIntoCollection c extend (constructFrom cfg.schemaFields beforeBuild data (some cnt))
  else
    mutateIntoCollection c extend (constructFrom cfg.schemaFields beforeBuild serverData none)

/-- The `hasMore` getter (lines 443-445): current length strictly below the
server-reported total. -/
def hasMoreColl (c : CollectionInst) : Bool :=
  (c.collection.length : Int) < c.rfCount

/-- The server payload of the pagination scenario:
`{rows: [{id: "a"}, {id: "b"}], count: 50}`. -/
def pageBody : JSValue :=
  .obj [("rows", .arr [.obj [("id", .str "a")], .obj [("id", .str "b")]]),
        ("count", .num 50)]

/-- A model configured with the default pagination keys and an `id` schema
field. -/
def pageCfg : ModelConfig := { endpoint := "/users", schemaFields := ["id"] }

/-- A freshly built empty collection instance. -/
def emptyColl : CollectionInst :=
  { collection := [], rfCount := 0, rfIsNew := none, props := [] }

/-! Helper lemmas about `List.findIdx?`. -/

theorem findIdx?_eq_none_of_all_false {α : Type} {p : α → Bool} {l : List α}
    (h : ∀ x ∈ l, p x = false) : ∀ i : Nat, l.findIdx? p i = none := by
  induction l with
  | nil => intro i; rfl
  | cons x xs ih =>
      intro i
      have hx : p x = false := h x (List.mem_cons_self x xs)
      rw [List.findIdx?_cons, hx]
      simp only [Bool.false_eq_true, if_false]
      exact ih (fun y hy => h y (List.mem_cons_of_mem x hy)) (i + 1)

theorem findIdx?_first_match {α : Type} {p : α → Bool} {l₁ l₂ : List α} {x : α}
    (h₁ : ∀ y ∈ l₁, p y = false) (hx : p x = true) :
    (l₁ ++ x :: l₂).findIdx? p = some l₁.length := by
  rw [List.findIdx?_append, findIdx?_eq_none_of_all_false h₁ 0]
  rw [List.findIdx?_cons, hx]
  simp

theorem spliceOne_at_append {α : Type} (l₁ l₂ : List α) (x : α) :
    spliceOne (l₁ ++ x :: l₂) l₁.length = ([x], l₁ ++ l₂) := by
  have hdrop : (l₁ ++ x :: l₂).drop l₁.length = x :: l₂ := List.drop_left l₁ (x :: l₂)
  have htake : (l₁ ++ x :: l₂).take l₁.length = l₁ := List.take_left l₁ (x :: l₂)
  have hdrop1 : (l₁ ++ x :: l₂).drop (l₁.length + 1) = l₂ := by
    rw [show l₁ ++ x :: l₂ = (l₁ ++ [x]) ++ l₂ by simp,
      show l₁.length + 1 = (l₁ ++ [x]).length by simp]
    exact List.drop_left _ _
  unfold spliceOne
  rw [hdrop, htake, hdrop1]
  rfl

/-- C1 counterexample: on the collection `[{id: "a"}]` with reference `"a"`,
`remove` does not return the removed item itself — it returns the one-element
array produced by `splice` (Model.js line 561). -/
theorem remove_returns_splice_array_not_bare_item :
    (CollState.remove citemPk (.byKey "a") ⟨[⟨"a"⟩], 1⟩).1 ≠ JsRet.bareItem ⟨"a"⟩ ∧
    (CollState.remove citemPk (.byKey "a") ⟨[⟨"a"⟩], 1⟩).1 = JsRet.array [⟨"a"⟩] := by
  constructor
  · intro h
    have : JsRet.array [(⟨"a"⟩ : CItem)] = JsRet.bareItem ⟨"a"⟩ := h
    exact JsRet.noConfusion this
  · rfl

/-- C1 (amended): if some item matches the reference, `remove` deletes the
first matching item from the ordered sequence, decrements `count` by one, and
returns the one-element array containing that item (the value of
`splice(indexToRemove, 1)`); if no item matches, it returns `null` and changes
neither the sequence nor `count`.  It never throws. -/
theorem remove_first_match_or_null {α : Type} (pk : α → String) (ref : Ref α)
    (c : CollState α) :
    ((∀ y ∈ c.items, getCollectionCallback pk ref y = false) →
        CollState.remove pk ref c = (.jsnull, c)) ∧
    (∀ l₁ l₂ : List α, ∀ x : α,
        c.items = l₁ ++ x :: l₂ →
        (∀ y ∈ l₁, getCollectionCallback pk ref y = false) →
        getCollectionCallback pk ref x = true →
        CollState.remove pk ref c =
          (.array [x], { items := l₁ ++ l₂, count := c.count - 1 })) := by
  constructor
  · intro h
    unfold CollState.remove
    rw [findIdx?_eq_none_of_all_false h 0]
  · intro l₁ l₂ x hitems h₁ hx
    unfold CollState.remove
    rw [hitems, findIdx?_first_match h₁ hx]
    show (JsRet.array (spliceOne (l₁ ++ x :: l₂) l₁.length).1,
      ({ items := (spliceOne (l₁ ++ x :: l₂) l₁.length).2, count := c.count - 1 } : CollState α)) = _
    rw [spliceOne_at_append]

/-- C1 witness: the amended statement evaluated on the collection
`[{id: "b"}, {id: "a"}]` with reference `"a"`. -/
theorem remove_first_match_or_null_witness :
    CollState.remove citemPk (.byKey "a") ⟨[⟨"b"⟩, ⟨"a"⟩], 2⟩ =
      (.array [⟨"a"⟩], { items := [⟨"b"⟩], count := 1 }) := by
  have h := (remove_first_match_or_null citemPk (.byKey "a") ⟨[⟨"b"⟩, ⟨"a"⟩], 2⟩).2
    [⟨"b"⟩] [] ⟨"a"⟩ rfl (by decide) (by decide)
  simpa using h

/-- C6: adding an item and removing it by a reference that matched no prior
element restores both the sequence and `count`, and `exists(ref)` is false
afterwards. -/
theorem add_then_remove_inverse {α : Type} (pk : α → String) (ref : Ref α)
    (c : CollState α) (x : α)
    (hnone : ∀ y ∈ c.items, getCollectionCallback pk ref y = false)
    (hx : getCollectionCallback pk ref x = true) :
    let c₁ := (c.add x).2
    let r := CollState.remove pk ref c₁
    r.2.items = c.items ∧ r.2.count = c.count ∧
      CollState.existsRef pk ref r.2 = false := by
  intro c₁ r
  have hrem := (remove_first_match_or_null pk ref c₁).2 c.items [] x rfl hnone hx
  have hitems : (CollState.remove pk ref c₁).2.items = c.items := by
    rw [hrem]; simp
  refine ⟨hitems, ?_, ?_⟩
  · show (CollState.remove pk ref c₁).2.count = c.count
    rw [hrem]
    show c₁.count - 1 = c.count
    show c.count + 1 - 1 = c.count
    omega
  · show CollState.existsRef pk ref (CollState.remove pk ref c₁).2 = false
    unfold CollState.existsRef
    rw [hitems, List.any_eq_false]
    intro y hy
    simp [hnone y hy]

/-- C6 witness: on the collection `[{id: "b"}]`, add `{id: "a"}` then remove
by key `"a"`. -/
theorem add_then_remove_inverse_witness :
    let c : CollState CItem := ⟨[⟨"b"⟩], 1⟩
    let c₁ := (c.add ⟨"a"⟩).2
    let r := CollState.remove citemPk (.byKey "a") c₁
    r.2.items = c.items ∧ r.2.count = c.count ∧
      CollState.existsRef citemPk (.byKey "a") r.2 = false :=
  add_then_remove_inverse citemPk (.byKey "a") ⟨[⟨"b"⟩], 1⟩ ⟨"a"⟩
    (by decide) (by decide)

/-- C10: `toJSON` never returns a string: whatever `beforeSerialize()` yields,
the call throws a `TypeError`, because it invokes the nonexistent member
`JSON.stringyfy` (Model.js line 402). -/
theorem toJSON_always_typeError (serialized : JSValue) :
    toJSON serialized = .error .typeError := rfl

/-- C2: a successful collection `GET` whose JSON body is
`{rows: [{id: "a"}, {id: "b"}], count: 50}`, on a model configured with
`collectionDataKey = "rows"` and `collectionCountKey = "count"`, is NOT
unwrapped: the unwrap test reads `this.collectionCountKey` from the instance,
where it is `undefined`, so the whole body is built as an item and merged —
leaving the collection length 0, `$restinfront.count` 0 and `hasMore` false,
with stray `rows`/`count` plain properties.  Under the spec reading of the
test (`processServerDataSpec`, deciding with the configured keys), the same
response yields length 2, `count` 50 and `hasMore` true, as the claim states. -/
theorem page_response_not_unwrapped :
    (processServerData pageCfg (fun _ v => v) emptyColl false pageBody).collection.length = 0 ∧
    (processServerData pageCfg (fun _ v => v) emptyColl false pageBody).rfCount = 0 ∧
    hasMoreColl (processServerData pageCfg (fun _ v => v) emptyColl false pageBody) = false ∧
    (processServerData pageCfg (fun _ v => v) emptyColl false pageBody).props.lookup "count" =
      some (.num 50) ∧
    (processServerData pageCfg (fun _ v => v) emptyColl false pageBody).rfIsNew = some false ∧
    (processServerDataSpec pageCfg (fun _ v => v) emptyColl false pageBody).collection.length = 2 ∧
    (processServerDataSpec pageCfg (fun _ v => v) emptyColl false pageBody).rfCount = 50 ∧
    hasMoreColl (processServerDataSpec pageCfg (fun _ v => v) emptyColl false pageBody) = true :=
  ⟨rfl, rfl, rfl, rfl, rfl, rfl, rfl, rfl⟩

/-- C5: validating a `BelongsTo` association whose value is `null` with a
nested field-spec list does not skip it — it throws a `TypeError`: the guard
on line 636 leaves `associationErrors` equal to `undefined` and line 652 reads
`.length` on it.  The later `title` entry of the list is never reached, and
`valid` propagates the exception instead of reporting a result. -/
theorem null_association_validation_throws :
    (validRun
        { data := VInst.mk [("author", .belongsTo none true), ("title", .plain true)],
          isNew := some true,
          states := ⟨false, false, false, false, ⟨false, false, false⟩⟩,
          fetchSave := ⟨true, false, true⟩,
          options := none }
        [.assoc "author" (some [.leaf "name"]), .leaf "title"]).thrown = some .typeError ∧
    (validRun
        { data := VInst.mk [("author", .belongsTo none true), ("title", .plain true)],
          isNew := some true,
          states := ⟨false, false, false, false, ⟨false, false, false⟩⟩,
          fetchSave := ⟨true, false, true⟩,
          options := none }
        [.assoc "author" (some [.leaf "name"]), .leaf "title"]).result = none ∧
    getValidationErrors (VInst.mk [("author", .belongsTo none true), ("title", .plain true)])
        [.assoc "author" (some [.leaf "name"]), .leaf "title"] [] = .error .typeError := by
  have hgve : getValidationErrors
      (VInst.mk [("author", .belongsTo none true), ("title", .plain true)])
      [.assoc "author" (some [.leaf "name"]), .leaf "title"] [] = .error .typeError := by
    simp [getValidationErrors]
  refine ⟨?_, ?_, hgve⟩ <;> simp [validRun, hgve]

/-- C3 counterexample: with authentication disabled, a concrete `POST` fetch
never builds request metadata carrying a body: `_buildRequestInit` throws a
`TypeError` on `JSON.stringyfy`, and the `fetch` call itself already throws a
`TypeError` at the per-operation state reset, without invoking `onFetchError`. -/
theorem post_request_body_counterexample :
    buildRequestInit pageCfg (.obj []) "POST" = .error .typeError ∧
    (fetchRun (δ := JSValue) pageCfg (.obj []) (fun d i _ => (d, i))
        { data := .obj [], isNew := some true,
          states := ⟨false, false, false, false, ⟨false, false, false⟩⟩,
          fetchSave := ⟨false, false, false⟩, options := none }
        { method := "POST" } .failure).thrown = some .typeError ∧
    (fetchRun (δ := JSValue) pageCfg (.obj []) (fun d i _ => (d, i))
        { data := .obj [], isNew := some true,
          states := ⟨false, false, false, false, ⟨false, false, false⟩⟩,
          fetchSave := ⟨false, false, false⟩, options := none }
        { method := "POST" } .failure).onFetchErrorCalled = false :=
  ⟨rfl, rfl, rfl⟩

/-- C3 (amended): every fetch with method `POST`, `PUT` or `PATCH` throws a
`TypeError` while resetting `states.save` (which is never initialized — the
constructor initializes the sibling `fetch.save`), before any request metadata
is built, leaving the instance data untouched and `onFetchError` uncalled;
and `_buildRequestInit` itself, when the authentication step succeeds, throws
a `TypeError` for these methods because `JSON.stringyfy` does not exist — so
no JSON body is ever attached. -/
theorem mutating_fetch_throws_before_body {δ : Type} (cfg : ModelConfig) (s : JSValue)
    (process : δ → Option Bool → JSValue → δ × Option Bool) (inst : FetchInstance δ)
    (opts : FetchOptions) (outcome : NetworkOutcome)
    (hep : cfg.endpoint ≠ "") (hm : opts.method ∈ ["POST", "PUT", "PATCH"])
    (hauth : authOk cfg = true) :
    (fetchRun cfg s process inst opts outcome).thrown = some .typeError ∧
    (fetchRun cfg s process inst opts outcome).inst.data = inst.data ∧
    (fetchRun cfg s process inst opts outcome).onFetchErrorCalled = false ∧
    buildRequestInit cfg s opts.method = .error .typeError := by
  have hne : ¬ opts.method = "GET" := by
    simp only [List.mem_cons, List.mem_singleton, List.not_mem_nil, or_false] at hm
    rcases hm with h | h | h <;> (rw [h]; decide)
  have hbody : ∀ ri : RequestInit, ri.method = opts.method →
      attachBody ri s = .error .typeError := by
    intro ri hri
    simp only [List.mem_cons, List.mem_singleton, List.not_mem_nil, or_false] at hm
    unfold attachBody
    rcases hm with h | h | h <;>
      (rw [hri, h]; rfl)
  have hbuild : buildRequestInit cfg s opts.method = .error .typeError := by
    unfold buildRequestInit
    cases hca : cfg.authentication with
    | disabled => exact hbody _ rfl
    | provider token =>
        have ht : tokenFalsy token = false := by
          unfold authOk at hauth
          rw [hca] at hauth
          simpa using hauth
        simp only [ht, Bool.false_eq_true, if_false]
        exact hbody { method := opts.method, hasAuthHeader := true, body := none } rfl
  refine ⟨?_, ?_, ?_, hbuild⟩ <;> simp [fetchRun, hep, hne]

/-- C3 witness: the amended statement evaluated on a concrete `POST` fetch. -/
theorem mutating_fetch_throws_before_body_witness :
    (fetchRun (δ := JSValue) pageCfg (.num 1) (fun d i _ => (d, i))
        { data := .num 1, isNew := some true,
          states := ⟨false, false, false, false, ⟨false, false, false⟩⟩,
          fetchSave := ⟨false, false, false⟩, options := none }
        { method := "PUT" } .failure).thrown = some .typeError ∧
    (fetchRun (δ := JSValue) pageCfg (.num 1) (fun d i _ => (d, i))
        { data := .num 1, isNew := some true,
          states := ⟨false, false, false, false, ⟨false, false, false⟩⟩,
          fetchSave := ⟨false, false, false⟩, options := none }
        { method := "PUT" } .failure).inst.data = .num 1 ∧
    (fetchRun (δ := JSValue) pageCfg (.num 1) (fun d i _ => (d, i))
        { data := .num 1, isNew := some true,
          states := ⟨false, false, false, false, ⟨false, false, false⟩⟩,
          fetchSave := ⟨false, false, false⟩, options := none }
        { method := "PUT" } .failure).onFetchErrorCalled = false ∧
    buildRequestInit pageCfg (.num 1) "PUT" = .error .typeError :=
  mutating_fetch_throws_before_body (δ := JSValue) pageCfg (.num 1) (fun d i _ => (d, i))
    { data := .num 1, isNew := some true,
      states := ⟨false, false, false, false, ⟨false, false, false⟩⟩,
      fetchSave := ⟨false, false, false⟩, options := none }
    { method := "PUT" } .failure (by decide) (by decide) (by decide)

/-- C4 counterexample: with a token provider yielding a falsy token, a concrete
`GET` fetch throws the `AuthenticationError` out of `fetch` (the
`_buildRequestInit` await on line 806 sits outside the try block): it is NOT
surfaced via `onFetchError`, and no failure transition happens. -/
theorem auth_falsy_token_counterexample :
    (fetchRun (δ := JSValue) { endpoint := "/users", authentication := .provider none }
        (.obj []) (fun d i _ => (d, i))
        { data := .obj [], isNew := some true,
          states := ⟨false, false, false, false, ⟨false, false, false⟩⟩,
          fetchSave := ⟨false, false, false⟩, options := none }
        { method := "GET" } .failure).thrown = some (.restinfrontError authTokenMsg) ∧
    (fetchRun (δ := JSValue) { endpoint := "/users", authentication := .provider none }
        (.obj []) (fun d i _ => (d, i))
        { data := .obj [], isNew := some true,
          states := ⟨false, false, false, false, ⟨false, false, false⟩⟩,
          fetchSave := ⟨false, false, false⟩, options := none }
        { method := "GET" } .failure).onFetchErrorCalled = false ∧
    (fetchRun (δ := JSValue) { endpoint := "/users", authentication := .provider none }
        (.obj []) (fun d i _ => (d, i))
        { data := .obj [], isNew := some true,
          states := ⟨false, false, false, false, ⟨false, false, false⟩⟩,
          fetchSave := ⟨false, false, false⟩, options := none }
        { method := "GET" } .failure).inst.states.failed = false :=
  ⟨rfl, rfl, rfl⟩

/-- C4 (amended): if the token provider yields a falsy token during a `GET`
fetch, the `AuthenticationError` (a `RestinfrontError` about the invalid
token) is thrown out of `fetch` to the caller, before any network call:
`onFetchError` is not invoked, the failed flag is not set, the instance data
and the `succeededOnce` latch are untouched, and both the global and the `get`
progressing flags are left `true` (the failure transition of other fetch
errors does not happen).  Non-`GET` fetches already throw a `TypeError`
earlier, at the per-operation state reset. -/
theorem auth_falsy_token_thrown {δ : Type} (cfg : ModelConfig) (s : JSValue)
    (process : δ → Option Bool → JSValue → δ × Option Bool) (inst : FetchInstance δ)
    (opts : FetchOptions) (outcome : NetworkOutcome) (token : Option String)
    (hep : cfg.endpoint ≠ "") (hm : opts.method = "GET")
    (hca : cfg.authentication = .provider token) (ht : tokenFalsy token = true) :
    (fetchRun cfg s process inst opts outcome).thrown = some (.restinfrontError authTokenMsg) ∧
    (fetchRun cfg s process inst opts outcome).onFetchErrorCalled = false ∧
    (fetchRun cfg s process inst opts outcome).inst.states.failed = false ∧
    (fetchRun cfg s process inst opts outcome).inst.states.progressing = true ∧
    (fetchRun cfg s process inst opts outcome).inst.states.get.progressing = true ∧
    (fetchRun cfg s process inst opts outcome).inst.data = inst.data ∧
    (fetchRun cfg s process inst opts outcome).inst.states.succeededOnce =
      inst.states.succeededOnce := by
  have hbr : buildRequestInit cfg s "GET" = .error (.restinfrontError authTokenMsg) := by
    unfold buildRequestInit
    rw [hca]
    simp [ht]
  refine ⟨?_, ?_, ?_, ?_, ?_, ?_, ?_⟩ <;> simp [fetchRun, hep, hm, hbr]

/-- C4 witness: the amended statement on a concrete falsy-token `GET` fetch. -/
theorem auth_falsy_token_thrown_witness :
    (fetchRun (δ := JSValue) { endpoint := "/x", authentication := .provider (some "") }
        (.num 0) (fun d i _ => (d, i))
        { data := .num 3, isNew := some false,
          states := ⟨false, true, true, false, ⟨false, true, false⟩⟩,
          fetchSave := ⟨false, false, false⟩, options := none }
        { method := "GET" } .failure).thrown = some (.restinfrontError authTokenMsg) ∧
    (fetchRun (δ := JSValue) { endpoint := "/x", authentication := .provider (some "") }
        (.num 0) (fun d i _ => (d, i))
        { data := .num 3, isNew := some false,
          states := ⟨false, true, true, false, ⟨false, true, false⟩⟩,
          fetchSave := ⟨false, false, false⟩, options := none }
        { method := "GET" } .failure).onFetchErrorCalled = false ∧
    (fetchRun (δ := JSValue) { endpoint := "/x", authentication := .provider (some "") }
        (.num 0) (fun d i _ => (d, i))
        { data := .num 3, isNew := some false,
          states := ⟨false, true, true, false, ⟨false, true, false⟩⟩,
          fetchSave := ⟨false, false, false⟩, options := none }
        { method := "GET" } .failure).inst.states.failed = false ∧
    (fetchRun (δ := JSValue) { endpoint := "/x", authentication := .provider (some "") }
        (.num 0) (fun d i _ => (d, i))
        { data := .num 3, isNew := some false,
          states := ⟨false, true, true, false, ⟨false, true, false⟩⟩,
          fetchSave := ⟨false, false, false⟩, options := none }
        { method := "GET" } .failure).inst.states.progressing = true ∧
    (fetchRun (δ := JSValue) { endpoint := "/x", authentication := .provider (some "") }
        (.num 0) (fun d i _ => (d, i))
        { data := .num 3, isNew := some false,
          states := ⟨false, true, true, false, ⟨false, true, false⟩⟩,
          fetchSave := ⟨false, false, false⟩, options := none }
        { method := "GET" } .failure).inst.states.get.progressing = true ∧
    (fetchRun (δ := JSValue) { endpoint := "/x", authentication := .provider (some "") }
        (.num 0) (fun d i _ => (d, i))
        { data := .num 3, isNew := some false,
          states := ⟨false, true, true, false, ⟨false, true, false⟩⟩,
          fetchSave := ⟨false, false, false⟩, options := none }
        { method := "GET" } .failure).inst.data = .num 3 ∧
    (fetchRun (δ := JSValue) { endpoint := "/x", authentication := .provider (some "") }
        (.num 0) (fun d i _ => (d, i))
        { data := .num 3, isNew := some false,
          states := ⟨false, true, true, false, ⟨false, true, false⟩⟩,
          fetchSave := ⟨false, false, false⟩, options := none }
        { method := "GET" } .failure).inst.states.succeededOnce = true :=
  auth_falsy_token_thrown (δ := JSValue) { endpoint := "/x", authentication := .provider (some "") }
    (.num 0) (fun d i _ => (d, i))
    { data := .num 3, isNew := some false,
      states := ⟨false, true, true, false, ⟨false, true, false⟩⟩,
      fetchSave := ⟨false, false, false⟩, options := none }
    { method := "GET" } .failure (some "") (by decide) rfl rfl rfl

theorem attachBody_get_ok (ri : RequestInit) (s : JSValue) (h : ri.method = "GET") :
    attachBody ri s = .ok ri := by
  unfold attachBody
  rw [h]
  rfl

/-- C7: a `GET` fetch whose request was actually issued (endpoint configured,
authentication step succeeded) and that then times out, hits a network
failure, or receives a non-2xx response, leaves the instance data untouched
(the server merge happens only on success), keeps `isNew` unchanged, never
touches the `succeededOnce` latch, sets the global and `get` failed flags,
invokes `onFetchError`, and throws nothing.  These are the only fetches that
can reach the network: every non-`GET` fetch throws a `TypeError` earlier. -/
theorem failed_fetch_preserves_instance {δ : Type} (cfg : ModelConfig) (s : JSValue)
    (process : δ → Option Bool → JSValue → δ × Option Bool) (inst : FetchInstance δ)
    (opts : FetchOptions) (outcome : NetworkOutcome)
    (hep : cfg.endpoint ≠ "") (hm : opts.method = "GET") (hauth : authOk cfg = true)
    (hfail : outcome = .failure ∨ ∃ b, outcome = .response false b) :
    (fetchRun cfg s process inst opts outcome).inst.data = inst.data ∧
    (fetchRun cfg s process inst opts outcome).inst.isNew = inst.isNew ∧
    (fetchRun cfg s process inst opts outcome).inst.states.failed = true ∧
    (fetchRun cfg s process inst opts outcome).inst.states.get.failed = true ∧
    (fetchRun cfg s process inst opts outcome).inst.states.succeededOnce =
      inst.states.succeededOnce ∧
    (fetchRun cfg s process inst opts outcome).thrown = none ∧
    (fetchRun cfg s process inst opts outcome).onFetchErrorCalled = true := by
  have hbr : ∃ ri, buildRequestInit cfg s "GET" = .ok ri := by
    unfold buildRequestInit
    cases hca : cfg.authentication with
    | disabled => exact ⟨_, rfl⟩
    | provider token =>
        have ht : tokenFalsy token = false := by
          unfold authOk at hauth
          rw [hca] at hauth
          simpa using hauth
        refine ⟨{ method := "GET", hasAuthHeader := true, body := none }, ?_⟩
        simp only [ht, Bool.false_eq_true, if_false]
        exact attachBody_get_ok _ _ rfl
  obtain ⟨ri, hri⟩ := hbr
  rcases hfail with hout | ⟨b, hout⟩ <;> subst hout <;>
    refine ⟨?_, ?_, ?_, ?_, ?_, ?_, ?_⟩ <;> simp [fetchRun, hep, hm, hri]

/-- C7 witness: a concrete non-2xx `GET` response on an item instance. -/
theorem failed_fetch_preserves_instance_witness :
    (fetchRun (δ := JSValue) pageCfg (.num 0) (fun d i _ => (d, i))
        { data := .obj [("id", .str "a")], isNew := some true,
          states := ⟨false, false, true, false, ⟨false, false, false⟩⟩,
          fetchSave := ⟨false, false, false⟩, options := none }
        { method := "GET" } (.response false (.obj []))).inst.data = .obj [("id", .str "a")] ∧
    (fetchRun (δ := JSValue) pageCfg (.num 0) (fun d i _ => (d, i))
        { data := .obj [("id", .str "a")], isNew := some true,
          states := ⟨false, false, true, false, ⟨false, false, false⟩⟩,
          fetchSave := ⟨false, false, false⟩, options := none }
        { method := "GET" } (.response false (.obj []))).inst.isNew = some true ∧
    (fetchRun (δ := JSValue) pageCfg (.num 0) (fun d i _ => (d, i))
        { data := .obj [("id", .str "a")], isNew := some true,
          states := ⟨false, false, true, false, ⟨false, false, false⟩⟩,
          fetchSave := ⟨false, false, false⟩, options := none }
        { method := "GET" } (.response false (.obj []))).inst.states.failed = true ∧
    (fetchRun (δ := JSValue) pageCfg (.num 0) (fun d i _ => (d, i))
        { data := .obj [("id", .str "a")], isNew := some true,
          states := ⟨false, false, true, false, ⟨false, false, false⟩⟩,
          fetchSave := ⟨false, false, false⟩, options := none }
        { method := "GET" } (.response false (.obj []))).inst.states.get.failed = true ∧
    (fetchRun (δ := JSValue) pageCfg (.num 0) (fun d i _ => (d, i))
        { data := .obj [("id", .str "a")], isNew := some true,
          states := ⟨false, false, true, false, ⟨false, false, false⟩⟩,
          fetchSave := ⟨false, false, false⟩, options := none }
        { method := "GET" } (.response false (.obj []))).inst.states.succeededOnce = true ∧
    (fetchRun (δ := JSValue) pageCfg (.num 0) (fun d i _ => (d, i))
        { data := .obj [("id", .str "a")], isNew := some true,
          states := ⟨false, false, true, false, ⟨false, false, false⟩⟩,
          fetchSave := ⟨false, false, false⟩, options := none }
        { method := "GET" } (.response false (.obj []))).thrown = none ∧
    (fetchRun (δ := JSValue) pageCfg (.num 0) (fun d i _ => (d, i))
        { data := .obj [("id", .str "a")], isNew := some true,
          states := ⟨false, false, true, false, ⟨false, false, false⟩⟩,
          fetchSave := ⟨false, false, false⟩, options := none }
        { method := "GET" } (.response false (.obj []))).onFetchErrorCalled = true :=
  failed_fetch_preserves_instance (δ := JSValue) pageCfg (.num 0) (fun d i _ => (d, i))
    { data := .obj [("id", .str "a")], isNew := some true,
      states := ⟨false, false, true, false, ⟨false, false, false⟩⟩,
      fetchSave := ⟨false, false, false⟩, options := none }
    { method := "GET" } (.response false (.obj [])) (by decide) rfl rfl
    (Or.inr ⟨.obj [], rfl⟩)

/-- C8: the `succeededOnce` latch is monotonic across the embedded state
machine: every `fetch` run (any configuration, method, and network outcome,
including the throwing paths) and every `valid` run preserves a true
`succeededOnce`.  The collection algebra and the server-data merge do not
carry the fetch states at all (`CollState`, `CollectionInst`). -/
theorem succeededOnce_monotonic :
    (∀ (δ : Type) (cfg : ModelConfig) (s : JSValue)
        (process : δ → Option Bool → JSValue → δ × Option Bool)
        (inst : FetchInstance δ) (opts : FetchOptions) (outcome : NetworkOutcome),
        inst.states.succeededOnce = true →
        (fetchRun cfg s process inst opts outcome).inst.states.succeededOnce = true) ∧
    (∀ (inst : FetchInstance VInst) (fieldlist : List FieldSpec),
        inst.states.succeededOnce = true →
        (validRun inst fieldlist).inst.states.succeededOnce = true) := by
  constructor
  · intro δ cfg s process inst opts outcome h
    by_cases hep : cfg.endpoint = ""
    · simp [fetchRun, hep, h]
    · by_cases hm : opts.method = "GET"
      · cases hbr : buildRequestInit cfg s "GET" with
        | error e => simp [fetchRun, hep, hm, hbr, h]
        | ok ri =>
            cases outcome with
            | failure => simp [fetchRun, hep, hm, hbr, h]
            | response ok body => cases ok <;> simp [fetchRun, hep, hm, hbr, h]
      · simp [fetchRun, hep, hm, h]
  · intro inst fieldlist h
    cases hn : inst.isNew with
    | none => simp [validRun, hn, h]
    | some b =>
        cases hg : getValidationErrors inst.data fieldlist [] with
        | error e => simp [validRun, hn, hg, h]
        | ok errors => simp [validRun, hn, hg, h]

/-- C8 witness: a `GET` fetch failure and a `valid` run on instances whose
latch is already true. -/
theorem succeededOnce_monotonic_witness :
    (fetchRun (δ := JSValue) pageCfg (.num 0) (fun d i _ => (d, i))
        { data := .num 0, isNew := some true,
          states := ⟨false, false, true, false, ⟨false, false, false⟩⟩,
          fetchSave := ⟨false, false, false⟩, options := none }
        { method := "GET" } .failure).inst.states.succeededOnce = true ∧
    (validRun
        { data := VInst.mk [("id", .plain true)], isNew := some false,
          states := ⟨false, false, true, false, ⟨false, false, false⟩⟩,
          fetchSave := ⟨true, true, true⟩, options := none }
        [.leaf "id"]).inst.states.succeededOnce = true :=
  ⟨succeededOnce_monotonic.1 JSValue pageCfg (.num 0) (fun d i _ => (d, i))
      { data := .num 0, isNew := some true,
        states := ⟨false, false, true, false, ⟨false, false, false⟩⟩,
        fetchSave := ⟨false, false, false⟩, options := none }
      { method := "GET" } .failure rfl,
    succeededOnce_monotonic.2
      { data := VInst.mk [("id", .plain true)], isNew := some false,
        states := ⟨false, false, true, false, ⟨false, false, false⟩⟩,
        fetchSave := ⟨true, true, true⟩, options := none }
      [.leaf "id"] rfl⟩

/-- C9: the global `progressing` flag is a latch: any `fetch` on a model with
an endpoint sets `$restinfront.fetch.states.progressing` to true (line 789)
and leaves it true on every exit path — success, failure, and both throwing
paths — because the exit code (lines 868-874) clears only the per-operation
progressing flag; a normally returning run has cleared `get.progressing`; and
`valid` (which resets only `fetch.save`) does not touch it.  No embedded
operation ever writes `false` to the global flag. -/
theorem global_progressing_latched :
    (∀ (δ : Type) (cfg : ModelConfig) (s : JSValue)
        (process : δ → Option Bool → JSValue → δ × Option Bool)
        (inst : FetchInstance δ) (opts : FetchOptions) (outcome : NetworkOutcome),
        cfg.endpoint ≠ "" →
        (fetchRun cfg s process inst opts outcome).inst.states.progressing = true) ∧
    (∀ (δ : Type) (cfg : ModelConfig) (s : JSValue)
        (process : δ → Option Bool → JSValue → δ × Option Bool)
        (inst : FetchInstance δ) (opts : FetchOptions) (outcome : NetworkOutcome),
        (fetchRun cfg s process inst opts outcome).thrown = none →
        (fetchRun cfg s process inst opts outcome).inst.states.get.progressing = false) ∧
    (∀ (inst : FetchInstance VInst) (fieldlist : List FieldSpec),
        (validRun inst fieldlist).inst.states.progressing = inst.states.progressing) := by
  refine ⟨?_, ?_, ?_⟩
  · intro δ cfg s process inst opts outcome hep
    by_cases hm : opts.method = "GET"
    · cases hbr : buildRequestInit cfg s "GET" with
      | error e => simp [fetchRun, hep, hm, hbr]
      | ok ri =>
          cases outcome with
          | failure => simp [fetchRun, hep, hm, hbr]
          | response ok body => cases ok <;> simp [fetchRun, hep, hm, hbr]
    · simp [fetchRun, hep, hm]
  · intro δ cfg s process inst opts outcome h
    by_cases hep : cfg.endpoint = ""
    · simp [fetchRun, hep] at h
    · by_cases hm : opts.method = "GET"
      · cases hbr : buildRequestInit cfg s "GET" with
        | error e => simp [fetchRun, hep, hm, hbr] at h
        | ok ri =>
            cases outcome with
            | failure => simp [fetchRun, hep, hm, hbr]
            | response ok body => cases ok <;> simp [fetchRun, hep, hm, hbr]
      · simp [fetchRun, hep, hm] at h
  · intro inst fieldlist
    cases hn : inst.isNew with
    | none => simp [validRun, hn]
    | some b =>
        cases hg : getValidationErrors inst.data fieldlist [] with
        | error e => simp [validRun, hn, hg]
        | ok errors => simp [validRun, hn, hg]

/-- C9 witness: a failing `GET` fetch (global flag latched true, per-operation
flag cleared on the normal exit) and a `valid` run. -/
theorem global_progressing_latched_witness :
    (fetchRun (δ := JSValue) pageCfg (.num 0) (fun d i _ => (d, i))
        { data := .num 0, isNew := some true,
          states := ⟨false, false, false, false, ⟨false, false, false⟩⟩,
          fetchSave := ⟨false, false, false⟩, options := none }
        { method := "GET" } .failure).inst.states.progressing = true ∧
    (fetchRun (δ := JSValue) pageCfg (.num 0) (fun d i _ => (d, i))
        { data := .num 0, isNew := some true,
          states := ⟨false, false, false, false, ⟨false, false, false⟩⟩,
          fetchSave := ⟨false, false, false⟩, options := none }
        { method := "GET" } .failure).inst.states.get.progressing = false ∧
    (validRun
        { data := VInst.mk [("id", .plain true)], isNew := some true,
          states := ⟨true, false, false, false, ⟨false, false, false⟩⟩,
          fetchSave := ⟨true, true, true⟩, options := none }
        [.leaf "id"]).inst.states.progressing = true :=
  ⟨global_progressing_latched.1 JSValue pageCfg (.num 0) (fun d i _ => (d, i))
      { data := .num 0, isNew := some true,
        states := ⟨false, false, false, false, ⟨false, false, false⟩⟩,
        fetchSave := ⟨false, false, false⟩, options := none }
      { method := "GET" } .failure (by decide),
    global_progressing_latched.2.1 JSValue pageCfg (.num 0) (fun d i _ => (d, i))
      { data := .num 0, isNew := some true,
        states := ⟨false, false, false, false, ⟨false, false, false⟩⟩,
        fetchSave := ⟨false, false, false⟩, options := none }
      { method := "GET" } .failure rfl,
    global_progressing_latched.2.2
      { data := VInst.mk [("id", .plain true)], isNew := some true,
        states := ⟨true, false, false, false, ⟨false, false, false⟩⟩,
        fetchSave := ⟨true, true, true⟩, options := none }
      [.leaf "id"]⟩
